import Mathlib

/-!
Verification of the streaming-chat client/server pair
(src/chatbot/server/index.js and the client component in src/unnamed/part_000)
against its natural-language specification.

The server side is an Express app: a fixed-window rate limiter (express-rate-limit,
configured at index.js lines 12-29), a POST /chat-stream SSE relay (lines 34-111),
and a GET /rate-limit-status read-only query (lines 129-167).  The client side is
a React component whose sendMessage function (part_000 lines 56-163) issues the
request, parses the SSE stream incrementally and maintains conversation and
rate-limit UI state.  Each definition below cites the source lines it embeds.
-/

namespace ChatSpec

/-! ## Data model -/

/-- Message roles (part_000 lines 3-6). -/
inductive Role
  | user
  | assistant
  | system
deriving DecidableEq, Repr

/-- A chat message: role plus text content (part_000 lines 3-6, spec Message). -/
structure ChatMessage where
  role : Role
  content : String
deriving DecidableEq, Repr

/-! ## Rate limiter

Modelled from the spec: the fixed-window algorithm of the external
express-rate-limit middleware (an npm dependency, not part of this repository;
src/chatbot/server/index.js lines 12-16 and 121-126 only configure it with
windowMs and max).  Spec section 4.1: "load or create the record for clientId;
if now >= windowStart + windowDuration, reset count = 0, windowStart = now.
Increment count. allowed = count <= max. remaining = max(0, max - count)."
Timestamps are milliseconds as Nat. -/

/-- Per-identifier record: hit count and start of the current window
(spec RateLimitRecord; express-rate-limit keeps totalHits plus resetTime,
where resetTime = windowStart + windowMs). -/
structure RateLimitRecord where
  count : Nat
  windowStart : Nat
deriving DecidableEq, Repr

/-- The keyed store, client identifier to record. -/
def Store := String → Option RateLimitRecord

/-- Admission decision handed to the endpoint (req.rateLimit in index.js). -/
structure Decision where
  allowed : Bool
  limit : Nat
  remaining : Nat
  resetTime : Nat
deriving DecidableEq, Repr

/-- Modelled from the spec: one admission check (the check-and-increment the
chatLimiter / statusLimiter middleware performs on every request routed
through it).  Returns the decision and the updated store. -/
def admission (store : Store) (clientId : String) (now maxReq windowMs : Nat) :
    Decision × Store :=
  let r0 := (store clientId).getD ⟨0, now⟩
  let r1 := if r0.windowStart + windowMs ≤ now then (⟨0, now⟩ : RateLimitRecord) else r0
  let newCount := r1.count + 1
  (⟨decide (newCount ≤ maxReq), maxReq, maxReq - newCount, r1.windowStart + windowMs⟩,
   fun k => if k = clientId then some ⟨newCount, r1.windowStart⟩ else store k)

/-- C6: fixed-window admission with max = 1 and a 60 s (60000 ms) window:
from a fresh identifier, a first check is allowed, a second check inside the
window is refused, a check after the window elapses is allowed again; each
remaining is max(0, 1 - count) = 0, and the third call stores a reset record
with count 1 and windowStart at the time of that call. -/
theorem fixed_window_admission_cycle (store : Store) (id : String) (t1 t2 t3 : Nat)
    (h0 : store id = none) (h12 : t2 < t1 + 60000) (h3 : t1 + 60000 ≤ t3) :
    (admission store id t1 1 60000).1.allowed = true
  ∧ (admission store id t1 1 60000).1.remaining = 0
  ∧ (admission (admission store id t1 1 60000).2 id t2 1 60000).1.allowed = false
  ∧ (admission (admission store id t1 1 60000).2 id t2 1 60000).1.remaining = 0
  ∧ (admission (admission (admission store id t1 1 60000).2 id t2 1 60000).2
        id t3 1 60000).1.allowed = true
  ∧ (admission (admission (admission store id t1 1 60000).2 id t2 1 60000).2
        id t3 1 60000).2 id = some ⟨1, t3⟩ := by
  have hn1 : ¬ (t1 + 60000 ≤ t1) := by omega
  have hn2 : ¬ (t1 + 60000 ≤ t2) := by omega
  simp [admission, h0, hn1, hn2, h3]

/-- Witness for fixed_window_admission_cycle at a concrete store and times. -/
theorem fixed_window_admission_cycle_witness :
    ((fun _ : String => (none : Option RateLimitRecord)) "ip" = none)
  ∧ ((admission (fun _ => none) "ip" 0 1 60000).1.allowed = true
     ∧ (admission (fun _ => none) "ip" 0 1 60000).1.remaining = 0
     ∧ (admission (admission (fun _ => none) "ip" 0 1 60000).2 "ip" 30000 1 60000).1.allowed = false
     ∧ (admission (admission (fun _ => none) "ip" 0 1 60000).2 "ip" 30000 1 60000).1.remaining = 0
     ∧ (admission (admission (admission (fun _ => none) "ip" 0 1 60000).2 "ip" 30000 1 60000).2
          "ip" 60000 1 60000).1.allowed = true
     ∧ (admission (admission (admission (fun _ => none) "ip" 0 1 60000).2 "ip" 30000 1 60000).2
          "ip" 60000 1 60000).2 "ip" = some ⟨1, 60000⟩) :=
  ⟨rfl, fixed_window_admission_cycle (fun _ => none) "ip" 0 30000 60000 rfl
      (by decide) (by decide)⟩

/-! ## Stream relay (POST /chat-stream handler body, index.js lines 34-111)

The provider (openai.chat.completions.create with stream: true) yields chunks;
each chunk may carry a text delta (chunk.choices[0].delta.content) and/or a
finish reason (chunk.choices[0].finish_reason).  The handler writes SSE events
on the response.  We model the response object after Node's stream semantics:
res.end() marks the response ended, and res.write after end transmits nothing
(Node raises ERR_STREAM_WRITE_AFTER_END asynchronously and discards the data),
so a written event appears in the trace only while the response is not ended. -/

/-- One wire event, the JSON payload of a data: line (index.js lines 83, 90, 95, 103). -/
inductive ServerEvent
  | content (s : String)
  | finishReason (s : String)
  | done
  | error (s : String)
deriving DecidableEq, Repr

/-- One chunk from the provider stream (index.js lines 81, 87). -/
structure ProviderChunk where
  content : Option String
  finish_reason : Option String
deriving DecidableEq, Repr

/-- The server response: trace of transmitted events plus the ended flag
(res.writableEnded).  The !res.writable check of line 77 coincides with
ended here, since the handler is the only writer. -/
structure Res where
  written : List ServerEvent
  ended : Bool
deriving DecidableEq, Repr

/-- res.write of one SSE event: transmitted only while the response is open
(write after end is discarded by Node). -/
def resWrite (e : ServerEvent) (r : Res) : Res :=
  if r.ended then r else ⟨r.written ++ [e], r.ended⟩

/-- res.end(): close the response (index.js lines 64, 96, 105). -/
def resEnd (r : Res) : Res :=
  ⟨r.written, true⟩

/-- The loop body for one provider chunk (index.js lines 81-92): emit a
content event when the delta is truthy (non-empty), then a finish_reason
event when that field is truthy. -/
def writeChunk (c : ProviderChunk) (r : Res) : Res :=
  let r2 := match c.content with
    | some s => if s == "" then r else resWrite (.content s) r
    | none => r
  match c.finish_reason with
  | some fr => if fr == "" then r2 else resWrite (.finishReason fr) r2
  | none => r2

/-- Whether the client disconnect (req "close" event, whose handler calls
res.end(), lines 62-66) fires at the current await point. -/
def discNow : Option Nat → Bool
  | some 0 => true
  | _ => false

/-- Advance the disconnect countdown past one await point. -/
def discStep : Option Nat → Option Nat
  | some (n + 1) => some n
  | d => d

/-- The for-await loop (index.js lines 75-93): before each chunk the
disconnect handler may have ended the response; the loop re-checks
res.writableEnded / res.writable and breaks without consuming further
chunks.  disc = some n means the client disconnect is observed at the
check preceding chunk n (0-indexed). -/
def relayChunks : List ProviderChunk → Option Nat → Res → Res
  | [], _, r => r
  | c :: cs, disc, r =>
    if discNow disc then resEnd r
    else if r.ended then r
    else relayChunks cs (discStep disc) (writeChunk c r)

/-- The provider call as the handler observes it: a chunk sequence ending
naturally, a chunk sequence after which the next await raises, or a raise
from create itself (index.js lines 69-73, 97). -/
inductive Upstream
  | ok (chunks : List ProviderChunk)
  | fail (chunks : List ProviderChunk) (msg : String)
  | createFail (msg : String)
deriving DecidableEq, Repr

/-- The full try/catch of the handler (index.js lines 68-110): on natural loop
exit write the done event and end (lines 95-96) — a break caused by a
disconnect reaches the same lines, but the write is discarded on the ended
response; on a raise, the catch writes one error event only if the response
is still open (lines 101-106).  A loop broken by disconnect never reaches
the raising await, so the fail path then completes like the ok path. -/
def relay (up : Upstream) (disc : Option Nat) : Res :=
  match up with
  | .createFail m =>
      let r : Res := if discNow disc then resEnd ⟨[], false⟩ else ⟨[], false⟩
      if r.ended then r else resEnd (resWrite (.error m) r)
  | .ok chunks =>
      let r := relayChunks chunks disc ⟨[], false⟩
      resEnd (resWrite .done r)
  | .fail chunks m =>
      let r := relayChunks chunks disc ⟨[], false⟩
      if r.ended then resEnd (resWrite .done r)
      else resEnd (resWrite (.error m) r)

/-- Terminal events of the wire protocol: done and error. -/
def isTerminal : ServerEvent → Bool
  | .done => true
  | .error _ => true
  | _ => false

/-- The content payloads of a trace, in order. -/
def contentsOf (w : List ServerEvent) : List String :=
  w.filterMap fun e => match e with
    | .content s => some s
    | _ => none

/-! ### Relay lemmas -/

/-- resWrite never changes the ended flag. -/
theorem resWrite_ended (e : ServerEvent) (r : Res) : (resWrite e r).ended = r.ended := by
  simp only [resWrite]
  split <;> rfl

/-- writeChunk never changes the ended flag. -/
theorem writeChunk_ended (c : ProviderChunk) (r : Res) : (writeChunk c r).ended = r.ended := by
  rcases c with ⟨co, fr⟩
  cases co <;> cases fr <;> simp only [writeChunk] <;> split_ifs <;>
    simp [resWrite_ended]

/-- resWrite of a non-terminal event leaves the terminal events of the trace unchanged. -/
theorem resWrite_filter_terminal (e : ServerEvent) (r : Res) (he : isTerminal e = false) :
    (resWrite e r).written.filter isTerminal = r.written.filter isTerminal := by
  simp only [resWrite]
  split
  · rfl
  · simp [List.filter_append, he]

/-- writeChunk leaves the terminal events of the trace unchanged. -/
theorem writeChunk_filter_terminal (c : ProviderChunk) (r : Res) :
    (writeChunk c r).written.filter isTerminal = r.written.filter isTerminal := by
  rcases c with ⟨co, fr⟩
  cases co <;> cases fr <;> simp only [writeChunk] <;> split_ifs <;>
    simp [resWrite_filter_terminal, isTerminal]

/-- The relay loop writes no terminal event. -/
theorem relayChunks_filter_terminal (cs : List ProviderChunk) (disc : Option Nat) (r : Res) :
    (relayChunks cs disc r).written.filter isTerminal = r.written.filter isTerminal := by
  induction cs generalizing disc r with
  | nil => rfl
  | cons c cs ih =>
    simp only [relayChunks]
    split_ifs with hd he
    · simp [resEnd]
    · rfl
    · rw [ih, writeChunk_filter_terminal]

/-- Without a disconnect the loop never ends the response. -/
theorem relayChunks_ended_none (cs : List ProviderChunk) (r : Res) :
    (relayChunks cs none r).ended = r.ended := by
  induction cs generalizing r with
  | nil => rfl
  | cons c cs ih =>
    have h1 : discNow none = false := rfl
    have h2 : discStep none = none := rfl
    simp only [relayChunks, h1, h2, Bool.false_eq_true, if_false]
    by_cases he : r.ended = true
    · simp [he]
    · simp only [Bool.not_eq_true] at he
      simp [he, ih, writeChunk_ended]

/-- A disconnect observed before chunk n makes the loop process exactly the
first n chunks and then end the response. -/
theorem relayChunks_disconnect (cs : List ProviderChunk) (n : Nat) (r : Res)
    (hr : r.ended = false) (hn : n < cs.length) :
    relayChunks cs (some n) r = resEnd (relayChunks (cs.take n) none r) := by
  induction cs generalizing n r with
  | nil => simp at hn
  | cons c cs ih =>
    cases n with
    | zero =>
      simp [relayChunks, discNow, resEnd]
    | succ n =>
      have hn' : n < cs.length := by simpa using hn
      have hw : (writeChunk c r).ended = false := by rw [writeChunk_ended]; exact hr
      simp only [relayChunks, discNow, discStep, List.take_succ_cons, hr]
      simp only [Bool.false_eq_true, if_false]
      exact ih n (writeChunk c r) hw hn'

/-- Write on an ended response is a no-op. -/
theorem resWrite_ended_eq (e : ServerEvent) (r : Res) (he : r.ended = true) :
    resWrite e r = r := by
  simp [resWrite, he]

/-- Write on an open response appends the event. -/
theorem resWrite_open_written (e : ServerEvent) (r : Res) (he : r.ended = false) :
    (resWrite e r).written = r.written ++ [e] := by
  simp [resWrite, he]

/-- The terminal events of any relay trace: none, a single done, or a single error. -/
theorem relay_filter_terminal_cases (up : Upstream) (disc : Option Nat) :
    (relay up disc).written.filter isTerminal = []
  ∨ (relay up disc).written.filter isTerminal = [ServerEvent.done]
  ∨ ∃ m, (relay up disc).written.filter isTerminal = [ServerEvent.error m] := by
  cases up with
  | ok chunks =>
    have hf := relayChunks_filter_terminal chunks disc ⟨[], false⟩
    by_cases he : (relayChunks chunks disc ⟨[], false⟩).ended = true
    · left
      simp only [relay, resEnd, resWrite_ended_eq _ _ he]
      simpa using hf
    · right; left
      simp only [Bool.not_eq_true] at he
      simp only [relay, resEnd, resWrite_open_written _ _ he, List.filter_append]
      simp only [hf]
      rfl
  | fail chunks m =>
    have hf := relayChunks_filter_terminal chunks disc ⟨[], false⟩
    by_cases he : (relayChunks chunks disc ⟨[], false⟩).ended = true
    · left
      simp only [relay, he, if_true, resEnd, resWrite_ended_eq _ _ he]
      simpa using hf
    · right; right
      refine ⟨m, ?_⟩
      simp only [Bool.not_eq_true] at he
      simp only [relay, he, Bool.false_eq_true, if_false, resEnd,
        resWrite_open_written _ _ he, List.filter_append]
      simp only [hf]
      rfl
  | createFail m =>
    by_cases hd : discNow disc = true
    · left
      simp [relay, hd, resEnd]
    · right; right
      refine ⟨m, ?_⟩
      simp only [Bool.not_eq_true] at hd
      simp [relay, hd, resEnd, resWrite, isTerminal]

/-- C7: for every request the relay emits at most one terminal event, and never
both a done and an error event; with the transport open throughout, natural
completion yields exactly one done and no error, and an upstream failure
(whether from the stream or from the create call) yields exactly one error
and no done. -/
theorem terminal_event_exclusivity (up : Upstream) (disc : Option Nat) :
    ((relay up disc).written.filter isTerminal).length ≤ 1
  ∧ (¬ (ServerEvent.done ∈ (relay up disc).written
        ∧ ∃ m, ServerEvent.error m ∈ (relay up disc).written))
  ∧ (∀ cs, up = Upstream.ok cs → disc = none →
      (relay up disc).written.filter isTerminal = [ServerEvent.done])
  ∧ (∀ cs m, up = Upstream.fail cs m → disc = none →
      (relay up disc).written.filter isTerminal = [ServerEvent.error m])
  ∧ (∀ m, up = Upstream.createFail m → disc = none →
      (relay up disc).written.filter isTerminal = [ServerEvent.error m]) := by
  refine ⟨?_, ?_, ?_, ?_, ?_⟩
  · rcases relay_filter_terminal_cases up disc with h | h | ⟨m, h⟩ <;> simp [h]
  · rintro ⟨hd, m, hm⟩
    have hd' : ServerEvent.done ∈ (relay up disc).written.filter isTerminal :=
      List.mem_filter.mpr ⟨hd, rfl⟩
    have hm' : ServerEvent.error m ∈ (relay up disc).written.filter isTerminal :=
      List.mem_filter.mpr ⟨hm, rfl⟩
    rcases relay_filter_terminal_cases up disc with h | h | ⟨k, h⟩ <;> rw [h] at hd' hm' <;>
      simp_all
  · rintro cs rfl rfl
    have he : (relayChunks cs none (⟨[], false⟩ : Res)).ended = false :=
      relayChunks_ended_none cs ⟨[], false⟩
    have hf := relayChunks_filter_terminal cs none (⟨[], false⟩ : Res)
    simp only [relay, resEnd, resWrite_open_written _ _ he, List.filter_append]
    simp only [hf]
    rfl
  · rintro cs m rfl rfl
    have he : (relayChunks cs none (⟨[], false⟩ : Res)).ended = false :=
      relayChunks_ended_none cs ⟨[], false⟩
    have hf := relayChunks_filter_terminal cs none (⟨[], false⟩ : Res)
    simp only [relay, he, Bool.false_eq_true, if_false, resEnd,
      resWrite_open_written _ _ he, List.filter_append]
    simp only [hf]
    rfl
  · rintro m rfl rfl
    simp [relay, discNow, resEnd, resWrite, isTerminal]

/-- Witness for terminal_event_exclusivity: a one-chunk natural completion
yields exactly one done event, and a failing upstream yields one error event. -/
theorem terminal_event_exclusivity_witness :
    (relay (Upstream.ok [⟨some "hi", none⟩]) none).written.filter isTerminal
      = [ServerEvent.done]
  ∧ (relay (Upstream.fail [⟨some "hi", none⟩] "boom") none).written.filter isTerminal
      = [ServerEvent.error "boom"] :=
  ⟨(terminal_event_exclusivity (Upstream.ok [⟨some "hi", none⟩]) none).2.2.1 _ rfl rfl,
   (terminal_event_exclusivity (Upstream.fail [⟨some "hi", none⟩] "boom") none).2.2.2.1
      _ _ rfl rfl⟩

/-- C4: when the client disconnect is observed mid-stream (before chunk n of
the upstream sequence), the relay stops consuming upstream chunks — its trace
is exactly the trace of the first n chunks — and writes no further event on
the response: in particular no done and no error event, whether the upstream
would have completed naturally or failed afterwards. -/
theorem disconnect_silence (chunks : List ProviderChunk) (n : Nat) (m : String)
    (hn : n < chunks.length) :
    ((relay (Upstream.ok chunks) (some n)).written
       = (relayChunks (chunks.take n) none ⟨[], false⟩).written
     ∧ (relay (Upstream.ok chunks) (some n)).written.filter isTerminal = [])
  ∧ ((relay (Upstream.fail chunks m) (some n)).written
       = (relayChunks (chunks.take n) none ⟨[], false⟩).written
     ∧ (relay (Upstream.fail chunks m) (some n)).written.filter isTerminal = []) := by
  have hL := relayChunks_disconnect chunks n ⟨[], false⟩ rfl hn
  have hok : relay (Upstream.ok chunks) (some n)
      = resEnd (relayChunks (chunks.take n) none ⟨[], false⟩) := by
    show resEnd (resWrite .done (relayChunks chunks (some n) ⟨[], false⟩)) = _
    rw [hL, resWrite_ended_eq _ _ rfl]
    rfl
  have hfl : relay (Upstream.fail chunks m) (some n)
      = resEnd (relayChunks (chunks.take n) none ⟨[], false⟩) := by
    show (if (relayChunks chunks (some n) (⟨[], false⟩ : Res)).ended = true
          then resEnd (resWrite .done (relayChunks chunks (some n) ⟨[], false⟩))
          else resEnd (resWrite (.error m) (relayChunks chunks (some n) ⟨[], false⟩))) = _
    rw [hL]
    simp only [resEnd, if_true]
    rw [resWrite_ended_eq _ _ rfl]
  have hfilter : (resEnd (relayChunks (chunks.take n) none ⟨[], false⟩)).written.filter
      isTerminal = [] := by
    show (relayChunks (chunks.take n) none (⟨[], false⟩ : Res)).written.filter isTerminal = []
    rw [relayChunks_filter_terminal]
    rfl
  exact ⟨⟨by rw [hok]; rfl, by rw [hok]; exact hfilter⟩,
         ⟨by rw [hfl]; rfl, by rw [hfl]; exact hfilter⟩⟩

/-- Witness for disconnect_silence: two upstream chunks, disconnect observed
before the second; only the first content event is on the wire and no
terminal event follows. -/
theorem disconnect_silence_witness :
    (relay (Upstream.ok [⟨some "a", none⟩, ⟨some "b", none⟩]) (some 1)).written
      = [ServerEvent.content "a"]
  ∧ (relay (Upstream.ok [⟨some "a", none⟩, ⟨some "b", none⟩]) (some 1)).written.filter
      isTerminal = [] := by
  have h := disconnect_silence [⟨some "a", none⟩, ⟨some "b", none⟩] 1 "x" (by decide)
  exact ⟨by rw [h.1.1]; rfl, h.1.2⟩

/-! ## POST /chat-stream endpoint pipeline (index.js lines 34-39)

The route is declared as app.post("/chat-stream", chatLimiter, handler):
Express runs the chatLimiter middleware first — its admission check happens
on every request reaching the route — and only an admitted request reaches
the handler, which then validates req.body.messages. -/

/-- The messages field of the request body as the handler can observe it:
absent (falsy), present but not an array, or an array (index.js line 37). -/
inductive MessagesField
  | missing
  | notArray
  | array (ms : List ChatMessage)
deriving DecidableEq, Repr

/-- The validity check of index.js line 37:
!messages || !Array.isArray(messages) || messages.length === 0. -/
def validMessages : MessagesField → Bool
  | .array ms => !ms.isEmpty
  | _ => false

/-- What the endpoint sends back: a 400 JSON error, the 429 limiter body
(index.js lines 21-27), or the 200 SSE stream. -/
inductive ChatResponse
  | badRequest (error : String)
  | tooMany (limit remaining resetTime retryAfterMs : Nat)
  | sse (events : List ServerEvent)
deriving DecidableEq, Repr

/-- The whole POST /chat-stream pipeline: chatLimiter admission first
(max 1 per 60000 ms window), its 429 handler on rejection with
retryAfterMs = resetTime - now floored to a 60000 default when non-positive
(index.js lines 17-27), then the handler's validation (lines 37-39), then
the relay.  Returns the response and the updated chat limiter store. -/
def chatStreamEndpoint (store : Store) (clientId : String) (now : Nat)
    (body : MessagesField) (up : Upstream) (disc : Option Nat) :
    ChatResponse × Store :=
  let a := admission store clientId now 1 60000
  if !a.1.allowed then
    let remainingMs := a.1.resetTime - now
    (.tooMany a.1.limit a.1.remaining a.1.resetTime
        (if 0 < remainingMs then remainingMs else 60000), a.2)
  else if !validMessages body then
    (.badRequest "Invalid messages format", a.2)
  else
    (.sse (relay up disc).written, a.2)

/-- C5 counterexample: from a fresh store, an invalid request (messages
missing) is answered 400 as the claim says, but it does consume the chat
quota slot: the store records one hit, and a well-formed request one
millisecond later inside the window is answered 429 — refuting the claim
that validation precedes admission and that an invalid request consumes no
quota slot. -/
theorem validation_precedes_admission_cex :
    (chatStreamEndpoint (fun _ => none) "ip" 0 MessagesField.missing
        (Upstream.ok []) none).1 = ChatResponse.badRequest "Invalid messages format"
  ∧ (chatStreamEndpoint (fun _ => none) "ip" 0 MessagesField.missing
        (Upstream.ok []) none).2 "ip" = some ⟨1, 0⟩
  ∧ (chatStreamEndpoint
        (chatStreamEndpoint (fun _ => none) "ip" 0 MessagesField.missing
            (Upstream.ok []) none).2
        "ip" 1 (MessagesField.array [⟨Role.user, "hi"⟩])
        (Upstream.ok []) none).1 = ChatResponse.tooMany 1 0 60000 59999 := by
  refine ⟨rfl, rfl, ?_⟩
  decide

/-- C5 amended: admission precedes validation.  Every request the chatLimiter
admits and whose messages field is missing, empty or not an array is answered
400 with error "Invalid messages format" and no stream is opened, but the
store keeps the incremented record of the admission check, i.e. the invalid
request still consumed a chat quota slot. -/
theorem admission_precedes_validation (store : Store) (clientId : String) (now : Nat)
    (body : MessagesField) (up : Upstream) (disc : Option Nat)
    (hadm : (admission store clientId now 1 60000).1.allowed = true)
    (hbad : validMessages body = false) :
    chatStreamEndpoint store clientId now body up disc
      = (ChatResponse.badRequest "Invalid messages format",
         (admission store clientId now 1 60000).2)
  ∧ ((chatStreamEndpoint store clientId now body up disc).2 clientId
      = some ⟨((store clientId).getD ⟨0, now⟩).count + 1
                , ((store clientId).getD ⟨0, now⟩).windowStart⟩
    ∨ (chatStreamEndpoint store clientId now body up disc).2 clientId = some ⟨1, now⟩) := by
  have h1 : chatStreamEndpoint store clientId now body up disc
      = (ChatResponse.badRequest "Invalid messages format",
         (admission store clientId now 1 60000).2) := by
    simp [chatStreamEndpoint, hadm, hbad]
  refine ⟨h1, ?_⟩
  rw [h1]
  by_cases hreset : (((store clientId).getD ⟨0, now⟩).windowStart + 60000 ≤ now)
  · right
    simp [admission, hreset]
  · left
    simp [admission, hreset]

/-- Witness for admission_precedes_validation: fresh store, missing messages. -/
theorem admission_precedes_validation_witness :
    ((admission (fun _ => none) "ip" 0 1 60000).1.allowed = true)
  ∧ (chatStreamEndpoint (fun _ => none) "ip" 0 MessagesField.missing
        (Upstream.ok []) none
      = (ChatResponse.badRequest "Invalid messages format",
         (admission (fun _ => none) "ip" 0 1 60000).2)) :=
  ⟨rfl, (admission_precedes_validation (fun _ => none) "ip" 0 MessagesField.missing
      (Upstream.ok []) none rfl rfl).1⟩

/-! ## GET /rate-limit-status (index.js lines 121-167)

The endpoint is guarded by its own statusLimiter (max 10 per 60000 ms window,
lines 121-126).  The handler reads the chat limiter's store with the
read-only store.get lookup (line 137) — modelled from the spec: the
express-rate-limit store's get is the "read-only status query that does not
increment the counter" — and never writes the chat store. -/

/-- The 200 body of the status endpoint (index.js lines 147-154, 160-165). -/
structure StatusResponse where
  isRateLimited : Bool
  limit : Nat
  remaining : Nat
  resetTime : Nat
deriving DecidableEq, Repr

/-- The status handler body (index.js lines 137-166): on a miss, report not
limited with the full limit remaining and a reset fabricated one window from
now; on a hit, remaining = max(0, max - totalHits) and the record's reset
time (windowStart + windowMs in this model). -/
def rateLimitStatus (chatStore : Store) (maxReq windowMs : Nat)
    (clientId : String) (now : Nat) : StatusResponse :=
  match chatStore clientId with
  | none => ⟨false, maxReq, maxReq, now + windowMs⟩
  | some r =>
      let remaining := maxReq - r.count
      ⟨decide (remaining ≤ 0), maxReq, remaining, r.windowStart + windowMs⟩

/-- Server-side shared state: the chat limiter store and the status limiter
store (two independent express-rate-limit instances). -/
structure ServerState where
  chatStore : Store
  statusStore : Store

/-- One GET /rate-limit-status call: statusLimiter admission (max 10), then —
when admitted — the read-only status body over the chat store.  Only the
status store is updated. -/
def statusCall (st : ServerState) (clientId : String) (now : Nat) :
    Option StatusResponse × ServerState :=
  let a := admission st.statusStore clientId now 10 60000
  (if a.1.allowed then some (rateLimitStatus st.chatStore 1 60000 clientId now) else none,
   ⟨st.chatStore, a.2⟩)

/-- A sequence of status calls, each with its identifier and time. -/
def statusCalls : ServerState → List (String × Nat) → ServerState
  | st, [] => st
  | st, c :: rest => statusCalls (statusCall st c.1 c.2).2 rest

/-- C8: any number of GET /rate-limit-status calls leaves the chat limiter
store untouched, so a chat admission check after them returns exactly the
decision and store update it would have returned without them. -/
theorem status_query_read_only (st : ServerState) (calls : List (String × Nat))
    (clientId : String) (now : Nat) :
    (statusCalls st calls).chatStore = st.chatStore
  ∧ admission (statusCalls st calls).chatStore clientId now 1 60000
      = admission st.chatStore clientId now 1 60000 := by
  have h : ∀ (cs : List (String × Nat)) (s : ServerState),
      (statusCalls s cs).chatStore = s.chatStore := by
    intro cs
    induction cs with
    | nil => intro s; rfl
    | cons c rest ih => intro s; exact ih (statusCall s c.1 c.2).2
  exact ⟨h calls st, by rw [h calls st]⟩

/-- C10: for an identifier with no record in the chat store, an admitted
status call returns 200 with isRateLimited = false, remaining and limit both
the full chat limit (1), and a reset time fabricated exactly one 60000 ms
window after the current time. -/
theorem unseen_identifier_status (st : ServerState) (clientId : String) (now : Nat)
    (hfresh : st.chatStore clientId = none)
    (hadm : (admission st.statusStore clientId now 10 60000).1.allowed = true) :
    (statusCall st clientId now).1 = some ⟨false, 1, 1, now + 60000⟩ := by
  simp [statusCall, hadm, rateLimitStatus, hfresh]

/-- Witness for unseen_identifier_status: both stores empty, now = 5. -/
theorem unseen_identifier_status_witness :
    ((⟨fun _ => none, fun _ => none⟩ : ServerState).chatStore "ip" = none)
  ∧ ((admission (⟨fun _ => none, fun _ => none⟩ : ServerState).statusStore
        "ip" 5 10 60000).1.allowed = true)
  ∧ (statusCall ⟨fun _ => none, fun _ => none⟩ "ip" 5).1
      = some ⟨false, 1, 1, 60005⟩ :=
  ⟨rfl, rfl, unseen_identifier_status ⟨fun _ => none, fun _ => none⟩ "ip" 5 rfl rfl⟩

/-! ## Chat Session Controller (client component, part_000 lines 23-171)

sendMessage (lines 56-163) guards on empty input / in-flight request / rate
limit, appends the user message and an empty placeholder assistant message,
issues the request, refreshes rate-limit state from the response headers,
and either rolls back (429, non-ok status, network failure) or reads the SSE
stream incrementally.  We model one parsed event per reader chunk (each
res.write on the server is one data: frame); the byte-level decoding is
modelled separately for C2. -/

/-- Client rate-limit state (part_000 lines 8-13).  remaining is a JS number,
modelled as Int so that the remaining <= 0 comparison of line 38 keeps its
meaning for any header value. -/
structure RateLimitInfo where
  limit : Int
  remaining : Int
  reset : Option Nat
  isLimited : Bool
deriving DecidableEq, Repr

/-- A parsed stream event (part_000 lines 16-21): every field optional;
absent fields are falsy. -/
structure StreamResponse where
  content : Option String
  finish_reason : Option String
  error : Option String
  done : Bool
deriving DecidableEq, Repr

/-- JavaScript String.prototype.trim as the component calls it (part_000
lines 57, 59): strip leading and trailing whitespace. -/
def strTrim (s : String) : String :=
  String.mk (((s.data.dropWhile Char.isWhitespace).reverse.dropWhile
      Char.isWhitespace).reverse)

/-- JavaScript truthiness of an optional string: present and non-empty. -/
def strTruthy : Option String → Bool
  | some s => !(s == "")
  | none => false

/-- The isRateLimited helper (part_000 lines 37-39):
rateLimit.isLimited || rateLimit.remaining <= 0. -/
def isRateLimited (rl : RateLimitInfo) : Bool :=
  rl.isLimited || decide (rl.remaining ≤ 0)

/-- State carried through the stream-reading loop (part_000 lines 110-154):
the conversation, the accumulating assistant text, the UI error, and the
responseFinished flag. -/
structure StreamState where
  messages : List ChatMessage
  assistantMessage : String
  error : Option String
  responseFinished : Bool
deriving DecidableEq, Repr

/-- Processing of one parsed event (part_000 lines 130-148): on truthy
content, extend the accumulator and replace the last message by the updated
assistant message; on truthy finish_reason or done, mark finished; on truthy
error, set the UI error and mark finished.  The three checks are sequential,
not exclusive. -/
def processLine (st : StreamState) (d : StreamResponse) : StreamState :=
  let st1 := match d.content with
    | some c =>
        if c == "" then st
        else
          let acc := st.assistantMessage ++ c
          { st with assistantMessage := acc
                  , messages := st.messages.dropLast ++ [⟨Role.assistant, acc⟩] }
    | none => st
  let st2 := if strTruthy d.finish_reason || d.done then
      { st1 with responseFinished := true }
    else st1
  if strTruthy d.error then
    { st2 with error := some ("Error: " ++ d.error.getD "")
             , responseFinished := true }
  else st2

/-- The while loop of part_000 lines 113-154: read and process events until
responseFinished; a reader that runs out of events (done from reader.read)
also finishes the response. -/
def readLoop : StreamState → List StreamResponse → StreamState
  | st, [] => { st with responseFinished := true }
  | st, e :: es => if st.responseFinished then st else readLoop (processLine st e) es

/-- The whole client UI state the component keeps (part_000 lines 24-33). -/
structure UIState where
  messages : List ChatMessage
  input : String
  isTyping : Bool
  rateLimit : RateLimitInfo
  error : Option String
deriving DecidableEq, Repr

/-- Rate-limit response headers as the client parses them (part_000 lines
78-87). -/
structure Headers where
  limit : Int
  remaining : Int
  reset : Option Nat
deriving DecidableEq, Repr

/-- The fetch outcome sendMessage can observe: a 429, another non-ok status,
a 200 stream of parsed events, or a network-level failure thrown by fetch. -/
inductive FetchResult
  | status429 (hdrs : Headers) (bodyError : String)
  | statusOther (hdrs : Headers) (status : Nat)
  | stream (hdrs : Headers) (events : List StreamResponse)
  | networkFailure (msg : String)
deriving DecidableEq, Repr

/-- Terminal phase of one send, the spec state machine's terminal states;
Blocked records that the guard of line 57 returned without sending. -/
inductive SendPhase
  | Blocked
  | RateLimited
  | Errored
  | Completed
deriving DecidableEq, Repr

/-- Result of one sendMessage call: the final UI state, the conversation
sent to the server (none when no request was issued), and the phase. -/
structure SendOutcome where
  ui : UIState
  request : Option (List ChatMessage)
  phase : SendPhase
deriving DecidableEq, Repr

/-- sendMessage (part_000 lines 56-163).  Guard (line 57): empty trimmed
input, in-flight request, or isRateLimited.  Then: append the user message,
append the empty placeholder assistant message, clear input, set typing,
clear the error, fetch; refresh rateLimit from headers with isLimited set
iff the status is 429 (lines 82-87); on 429 set the error and roll back to
updatedMessages (lines 90-97); on another non-ok status throw, caught below
(lines 100-102); on success run the read loop (lines 104-154); the catch
(lines 155-159) sets the error and rolls back; finally clears isTyping. -/
def sendMessage (s : UIState) (resp : FetchResult) : SendOutcome :=
  if (strTrim s.input == "") || s.isTyping || isRateLimited s.rateLimit then
    ⟨s, none, .Blocked⟩
  else
    let userMessage : ChatMessage := ⟨Role.user, strTrim s.input⟩
    let updatedMessages := s.messages ++ [userMessage]
    let s1 : UIState :=
      { messages := updatedMessages ++ [⟨Role.assistant, ""⟩]
      , input := ""
      , isTyping := true
      , rateLimit := s.rateLimit
      , error := none }
    match resp with
    | .networkFailure m =>
        ⟨{ s1 with error := some ("Error: " ++ m)
                 , messages := updatedMessages
                 , isTyping := false },
         some updatedMessages, .Errored⟩
    | .status429 h be =>
        ⟨{ s1 with rateLimit := ⟨h.limit, h.remaining, h.reset, true⟩
                 , error := some ("Rate limited: " ++ be ++ ". Try again later.")
                 , messages := updatedMessages
                 , isTyping := false },
         some updatedMessages, .RateLimited⟩
    | .statusOther h st =>
        ⟨{ s1 with rateLimit := ⟨h.limit, h.remaining, h.reset, false⟩
                 , error := some ("Error: Server error: " ++ toString st)
                 , messages := updatedMessages
                 , isTyping := false },
         some updatedMessages, .Errored⟩
    | .stream h events =>
        let st := readLoop ⟨s1.messages, "", none, false⟩ events
        ⟨{ s1 with rateLimit := ⟨h.limit, h.remaining, h.reset, false⟩
                 , messages := st.messages
                 , error := st.error
                 , isTyping := false },
         some updatedMessages,
         if st.error.isSome then .Errored else .Completed⟩

/-- The disabled predicate of the input field (part_000 line 231). -/
def inputDisabled (s : UIState) : Bool :=
  s.isTyping || isRateLimited s.rateLimit

/-- The disabled predicate of the send button (part_000 line 240). -/
def sendButtonDisabled (s : UIState) : Bool :=
  s.isTyping || isRateLimited s.rateLimit || (strTrim s.input == "")

/-- C9: whenever rateLimit.remaining <= 0 — isLimited may well be false —
sendMessage returns at the guard: the UI state (messages, input, everything)
is unchanged and no request is issued; and both the input field and the send
button are disabled. -/
theorem quota_exhausted_send_gate (s : UIState) (resp : FetchResult)
    (hrem : s.rateLimit.remaining ≤ 0) :
    (sendMessage s resp).ui = s
  ∧ (sendMessage s resp).request = none
  ∧ (sendMessage s resp).phase = SendPhase.Blocked
  ∧ inputDisabled s = true
  ∧ sendButtonDisabled s = true := by
  have hg : isRateLimited s.rateLimit = true := by
    simp [isRateLimited, hrem]
  simp [sendMessage, inputDisabled, sendButtonDisabled, hg]

/-- Witness for quota_exhausted_send_gate: remaining 0 with isLimited false,
non-empty input, not typing. -/
theorem quota_exhausted_send_gate_witness :
    ((⟨[], "hi", false, ⟨1, 0, none, false⟩, none⟩ : UIState).rateLimit.remaining ≤ 0)
  ∧ ((sendMessage ⟨[], "hi", false, ⟨1, 0, none, false⟩, none⟩
        (FetchResult.networkFailure "x")).ui
      = ⟨[], "hi", false, ⟨1, 0, none, false⟩, none⟩
    ∧ (sendMessage ⟨[], "hi", false, ⟨1, 0, none, false⟩, none⟩
        (FetchResult.networkFailure "x")).request = none) := by
  have h := quota_exhausted_send_gate
      ⟨[], "hi", false, ⟨1, 0, none, false⟩, none⟩
      (FetchResult.networkFailure "x") (by decide)
  exact ⟨by decide, h.1, h.2.1⟩

/-! ## End-to-end stream reconstruction -/

/-- Joining a cons of strings. -/
theorem string_join_cons (c : String) (l : List String) :
    String.join (c :: l) = c ++ String.join l := by
  simp [String.join_eq]
  rfl

/-- A parsed event carrying only content, as the client sees one content
frame. -/
def contentEvent (c : String) : StreamResponse :=
  ⟨some c, none, none, false⟩

/-- A provider chunk carrying only a text delta. -/
def mkDelta (d : String) : ProviderChunk :=
  ⟨some d, none⟩

/-- The JSON round trip of one wire event: the client parses exactly the
object the server serialized into the data: frame (index.js
JSON.stringify at lines 83, 90, 95, 103; part_000 JSON.parse at line 128). -/
def toStreamResponse : ServerEvent → StreamResponse
  | .content s => ⟨some s, none, none, false⟩
  | .finishReason s => ⟨none, some s, none, false⟩
  | .error s => ⟨none, none, some s, false⟩
  | .done => ⟨none, none, none, true⟩

/-- An empty content event leaves the stream state unchanged (the line 131
truthiness check skips it). -/
theorem processLine_content_empty (st : StreamState) :
    processLine st (contentEvent "") = st := by
  simp [processLine, contentEvent, strTruthy]

/-- A non-empty content event extends the accumulator and replaces the final
(placeholder) assistant message. -/
theorem processLine_content (M : List ChatMessage) (acc c : String)
    (hc : (c == "") = false) :
    processLine ⟨M ++ [⟨Role.assistant, acc⟩], acc, none, false⟩ (contentEvent c)
      = ⟨M ++ [⟨Role.assistant, acc ++ c⟩], acc ++ c, none, false⟩ := by
  simp [processLine, contentEvent, strTruthy, hc]

/-- One unfinished read-loop step. -/
theorem readLoop_cons (st : StreamState) (e : StreamResponse)
    (es : List StreamResponse) (h : st.responseFinished = false) :
    readLoop st (e :: es) = readLoop (processLine st e) es := by
  simp [readLoop, h]

/-- Running the read loop over a block of content events accumulates the
non-empty contents in order into the final assistant message. -/
theorem readLoop_contents (cs : List String) (es : List StreamResponse)
    (M : List ChatMessage) (acc : String) :
    readLoop ⟨M ++ [⟨Role.assistant, acc⟩], acc, none, false⟩
        (cs.map contentEvent ++ es)
      = readLoop ⟨M ++ [⟨Role.assistant,
            acc ++ String.join (cs.filter (fun x => !(x == "")))⟩],
          acc ++ String.join (cs.filter (fun x => !(x == ""))), none, false⟩ es := by
  induction cs generalizing acc with
  | nil =>
    simp only [List.map_nil, List.nil_append, List.filter_nil]
    rw [show String.join ([] : List String) = "" from rfl, String.append_empty]
  | cons c cs ih =>
    by_cases hc : (c == "") = true
    · have hceq : c = "" := by simpa using hc
      subst hceq
      rw [List.map_cons, List.cons_append, readLoop_cons _ _ _ rfl,
          processLine_content_empty,
          show (("" :: cs).filter (fun x => !(x == ""))) = cs.filter (fun x => !(x == ""))
            from by simp]
      exact ih acc
    · have hc' : (c == "") = false := by simpa using hc
      rw [List.map_cons, List.cons_append, readLoop_cons _ _ _ rfl,
          processLine_content _ _ _ hc',
          show ((c :: cs).filter (fun x => !(x == "")))
              = c :: cs.filter (fun x => !(x == "")) from by simp [hc'],
          string_join_cons,
          show acc ++ (c ++ String.join (cs.filter (fun x => !(x == ""))))
              = (acc ++ c) ++ String.join (cs.filter (fun x => !(x == "")))
            from (String.append_assoc _ _ _).symm]
      exact ih (acc ++ c)

/-- The loop on an ended response returns it unchanged. -/
theorem relayChunks_ended_id (cs : List ProviderChunk) (disc : Option Nat) (r : Res)
    (he : r.ended = true) : relayChunks cs disc r = r := by
  cases cs with
  | nil => rfl
  | cons c cs =>
    have hr : resEnd r = r := by cases r; simp_all [resEnd]
    simp [relayChunks, he, hr]

/-- Without a disconnect the loop distributes over chunk-list append. -/
theorem relayChunks_append_none (as bs : List ProviderChunk) (r : Res) :
    relayChunks (as ++ bs) none r = relayChunks bs none (relayChunks as none r) := by
  induction as generalizing r with
  | nil => rfl
  | cons a as ih =>
    by_cases he : r.ended = true
    · rw [relayChunks_ended_id _ _ _ he, relayChunks_ended_id _ _ _ he,
          relayChunks_ended_id _ _ _ he]
    · have he' : r.ended = false := by simpa using he
      rw [List.cons_append,
          show relayChunks (a :: (as ++ bs)) none r
              = relayChunks (as ++ bs) none (writeChunk a r) from by
            simp [relayChunks, discNow, discStep, he'],
          show relayChunks (a :: as) none r
              = relayChunks as none (writeChunk a r) from by
            simp [relayChunks, discNow, discStep, he']]
      exact ih (writeChunk a r)

/-- The loop over pure content deltas writes one content event per non-empty
delta, in arrival order. -/
theorem relayChunks_deltas (ds : List String) (r : Res) (hr : r.ended = false) :
    relayChunks (ds.map mkDelta) none r
      = ⟨r.written ++ (ds.filter (fun x => !(x == ""))).map ServerEvent.content, false⟩ := by
  induction ds generalizing r with
  | nil =>
    cases r
    simp_all [relayChunks]
  | cons d ds ih =>
    rw [List.map_cons,
        show relayChunks (mkDelta d :: ds.map mkDelta) none r
            = relayChunks (ds.map mkDelta) none (writeChunk (mkDelta d) r) from by
          simp [relayChunks, discNow, discStep, hr]]
    by_cases hd : (d == "") = true
    · have hwr : writeChunk (mkDelta d) r = r := by
        simp [writeChunk, mkDelta, hd]
      rw [hwr, ih r hr]
      simp [List.filter_cons, hd]
    · have hd' : (d == "") = false := by simpa using hd
      have hwr : writeChunk (mkDelta d) r = ⟨r.written ++ [.content d], false⟩ := by
        simp [writeChunk, mkDelta, hd', resWrite, hr]
      rw [hwr, ih _ rfl]
      simp [List.filter_cons, hd']

/-- The full 200 trace for deltas followed by a truthy finish signal:
content events for the non-empty deltas in order, then the finish_reason
event, then the done event. -/
theorem relay_ok_trace (ds : List String) (fr : String) (hfr : (fr == "") = false) :
    (relay (Upstream.ok (ds.map mkDelta ++ [⟨none, some fr⟩])) none).written
      = (ds.filter (fun x => !(x == ""))).map ServerEvent.content
          ++ [ServerEvent.finishReason fr, ServerEvent.done] := by
  show (resEnd (resWrite .done
      (relayChunks (ds.map mkDelta ++ [⟨none, some fr⟩]) none ⟨[], false⟩))).written = _
  rw [relayChunks_append_none, relayChunks_deltas ds _ rfl]
  simp [relayChunks, discNow, writeChunk, hfr, resWrite, resEnd]

/-- contentsOf distributes over append. -/
theorem contentsOf_append (a b : List ServerEvent) :
    contentsOf (a ++ b) = contentsOf a ++ contentsOf b := by
  simp [contentsOf]

/-- contentsOf recovers the payloads of a block of content events. -/
theorem contentsOf_map_content (l : List String) :
    contentsOf (l.map ServerEvent.content) = l := by
  induction l <;> simp_all [contentsOf]

/-- The parsed view of a content-event block. -/
theorem map_toStreamResponse_content (l : List String) :
    (l.map ServerEvent.content).map toStreamResponse = l.map contentEvent := by
  induction l <;> simp_all [toStreamResponse, contentEvent]

/-- sendMessage on a 200 stream, once past the guard: placeholder appended,
headers taken over with isLimited false, then the read loop decides the
final conversation, error and phase. -/
theorem sendMessage_stream (s : UIState) (h : Headers) (events : List StreamResponse)
    (hin : (strTrim s.input == "") = false) (hty : s.isTyping = false)
    (hrl : isRateLimited s.rateLimit = false) :
    sendMessage s (FetchResult.stream h events)
      = ⟨⟨(readLoop ⟨(s.messages ++ [⟨Role.user, strTrim s.input⟩]) ++ [⟨Role.assistant, ""⟩],
              "", none, false⟩ events).messages,
          "", false, ⟨h.limit, h.remaining, h.reset, false⟩,
          (readLoop ⟨(s.messages ++ [⟨Role.user, strTrim s.input⟩]) ++ [⟨Role.assistant, ""⟩],
              "", none, false⟩ events).error⟩,
         some (s.messages ++ [⟨Role.user, strTrim s.input⟩]),
         if (readLoop ⟨(s.messages ++ [⟨Role.user, strTrim s.input⟩]) ++ [⟨Role.assistant, ""⟩],
              "", none, false⟩ events).error.isSome
         then SendPhase.Errored else SendPhase.Completed⟩ := by
  simp [sendMessage, hin, hty, hrl]

/-- C1: end-to-end streaming reconstruction.  For an admitted request whose
provider emits the text deltas ds and then a truthy finish signal, the
server's trace carries one content event per non-empty delta in arrival
order, and the client ends with the conversation extended by the user
message and exactly one final assistant message whose content is the
in-order concatenation of those content events, no error, and the send in
phase Completed. -/
theorem streaming_reconstruction (s : UIState) (h : Headers) (ds : List String)
    (fr : String) (hin : (strTrim s.input == "") = false) (hty : s.isTyping = false)
    (hrl : isRateLimited s.rateLimit = false) (hfr : (fr == "") = false) :
    contentsOf (relay (Upstream.ok (ds.map mkDelta ++ [⟨none, some fr⟩])) none).written
      = ds.filter (fun x => !(x == ""))
  ∧ (sendMessage s (FetchResult.stream h
        ((relay (Upstream.ok (ds.map mkDelta ++ [⟨none, some fr⟩])) none).written.map
          toStreamResponse))).ui.messages
      = s.messages ++ [⟨Role.user, strTrim s.input⟩,
          ⟨Role.assistant, String.join (contentsOf (relay (Upstream.ok
              (ds.map mkDelta ++ [⟨none, some fr⟩])) none).written)⟩]
  ∧ (sendMessage s (FetchResult.stream h
        ((relay (Upstream.ok (ds.map mkDelta ++ [⟨none, some fr⟩])) none).written.map
          toStreamResponse))).ui.error = none
  ∧ (sendMessage s (FetchResult.stream h
        ((relay (Upstream.ok (ds.map mkDelta ++ [⟨none, some fr⟩])) none).written.map
          toStreamResponse))).phase = SendPhase.Completed := by
  have htrace := relay_ok_trace ds fr hfr
  have hcontents : contentsOf (relay (Upstream.ok
      (ds.map mkDelta ++ [⟨none, some fr⟩])) none).written
      = ds.filter (fun x => !(x == "")) := by
    rw [htrace, contentsOf_append, contentsOf_map_content]
    simp [contentsOf]
  have hevents : (relay (Upstream.ok (ds.map mkDelta ++ [⟨none, some fr⟩])) none).written.map
      toStreamResponse
      = (ds.filter (fun x => !(x == ""))).map contentEvent
          ++ [⟨none, some fr, none, false⟩, ⟨none, none, none, true⟩] := by
    rw [htrace, List.map_append, map_toStreamResponse_content]
    rfl
  have hfilter : (ds.filter (fun x => !(x == ""))).filter (fun x => !(x == ""))
      = ds.filter (fun x => !(x == "")) :=
    List.filter_eq_self.mpr (fun a ha => (List.mem_filter.mp ha).2)
  have hloop : readLoop
      ⟨(s.messages ++ [⟨Role.user, strTrim s.input⟩]) ++ [⟨Role.assistant, ""⟩], "", none, false⟩
      ((relay (Upstream.ok (ds.map mkDelta ++ [⟨none, some fr⟩])) none).written.map
        toStreamResponse)
      = ⟨(s.messages ++ [⟨Role.user, strTrim s.input⟩])
            ++ [⟨Role.assistant, String.join (ds.filter (fun x => !(x == "")))⟩],
          String.join (ds.filter (fun x => !(x == ""))), none, true⟩ := by
    rw [hevents, readLoop_contents, hfilter,
        show ("" ++ String.join (ds.filter (fun x => !(x == ""))))
            = String.join (ds.filter (fun x => !(x == ""))) from rfl]
    rw [readLoop_cons _ _ _ rfl,
        show processLine ⟨(s.messages ++ [⟨Role.user, strTrim s.input⟩])
              ++ [⟨Role.assistant, String.join (ds.filter (fun x => !(x == "")))⟩],
            String.join (ds.filter (fun x => !(x == ""))), none, false⟩
            ⟨none, some fr, none, false⟩
          = ⟨(s.messages ++ [⟨Role.user, strTrim s.input⟩])
              ++ [⟨Role.assistant, String.join (ds.filter (fun x => !(x == "")))⟩],
            String.join (ds.filter (fun x => !(x == ""))), none, true⟩ from by
          simp [processLine, strTruthy, hfr]]
    simp [readLoop]
  rw [sendMessage_stream s h _ hin hty hrl]
  refine ⟨hcontents, ?_, ?_, ?_⟩
  · rw [hloop]
    simp [hcontents]
  · rw [hloop]
  · rw [hloop]
    rfl

/-- Witness for streaming_reconstruction: deltas "Hel", "lo" with finish
reason "stop" from a fresh UI state with input "hi" accumulate to "Hello". -/
theorem streaming_reconstruction_witness :
    ((strTrim (⟨[], "hi", false, ⟨1, 1, none, false⟩, none⟩ : UIState).input == "") = false)
  ∧ (contentsOf (relay (Upstream.ok (["Hel", "lo"].map mkDelta ++ [⟨none, some "stop"⟩]))
        none).written = ["Hel", "lo"].filter (fun x => !(x == ""))
    ∧ (sendMessage ⟨[], "hi", false, ⟨1, 1, none, false⟩, none⟩
          (FetchResult.stream ⟨1, 0, none⟩
            ((relay (Upstream.ok (["Hel", "lo"].map mkDelta ++ [⟨none, some "stop"⟩]))
              none).written.map toStreamResponse))).ui.messages
        = [] ++ [⟨Role.user, strTrim "hi"⟩,
            ⟨Role.assistant, String.join (contentsOf (relay (Upstream.ok
                (["Hel", "lo"].map mkDelta ++ [⟨none, some "stop"⟩])) none).written)⟩]
    ∧ (sendMessage ⟨[], "hi", false, ⟨1, 1, none, false⟩, none⟩
          (FetchResult.stream ⟨1, 0, none⟩
            ((relay (Upstream.ok (["Hel", "lo"].map mkDelta ++ [⟨none, some "stop"⟩]))
              none).written.map toStreamResponse))).phase = SendPhase.Completed) := by
  have h := streaming_reconstruction ⟨[], "hi", false, ⟨1, 1, none, false⟩, none⟩
      ⟨1, 0, none⟩ ["Hel", "lo"] "stop" (by decide) rfl (by decide) (by decide)
  exact ⟨by decide, h.1, h.2.1, h.2.2.2⟩

/-- C3 counterexample: a stream carrying the single event with error "boom"
leaves the conversation with the placeholder assistant message still
appended — it is NOT rolled back to the pre-send state [user "hi"] — while
the error message and Errored phase are as claimed. -/
theorem error_event_rollback_cex :
    (sendMessage ⟨[], "hi", false, ⟨1, 1, none, false⟩, none⟩
        (FetchResult.stream ⟨1, 0, none⟩ [⟨none, none, some "boom", false⟩])).ui.messages
      ≠ [⟨Role.user, "hi"⟩]
  ∧ (sendMessage ⟨[], "hi", false, ⟨1, 1, none, false⟩, none⟩
        (FetchResult.stream ⟨1, 0, none⟩ [⟨none, none, some "boom", false⟩])).ui.messages
      = [⟨Role.user, "hi"⟩, ⟨Role.assistant, ""⟩]
  ∧ (sendMessage ⟨[], "hi", false, ⟨1, 1, none, false⟩, none⟩
        (FetchResult.stream ⟨1, 0, none⟩ [⟨none, none, some "boom", false⟩])).ui.error
      = some "Error: boom"
  ∧ (sendMessage ⟨[], "hi", false, ⟨1, 1, none, false⟩, none⟩
        (FetchResult.stream ⟨1, 0, none⟩ [⟨none, none, some "boom", false⟩])).phase
      = SendPhase.Errored := by
  refine ⟨?_, rfl, rfl, rfl⟩
  decide

/-- C3 amended: on a mid-stream error event the Controller terminates in
phase Errored with a user-visible message containing the error text, but the
conversation is NOT restored to its pre-send state: the placeholder
assistant message — holding whatever partial content streamed in before the
error — remains as the final message.  (Rollback happens only on 429,
non-ok statuses and network failures, part_000 lines 94, 159.) -/
theorem error_event_no_rollback (s : UIState) (h : Headers) (cs : List String)
    (m : String) (hin : (strTrim s.input == "") = false) (hty : s.isTyping = false)
    (hrl : isRateLimited s.rateLimit = false) (hm : (m == "") = false) :
    (sendMessage s (FetchResult.stream h
        (cs.map contentEvent ++ [⟨none, none, some m, false⟩]))).phase = SendPhase.Errored
  ∧ (sendMessage s (FetchResult.stream h
        (cs.map contentEvent ++ [⟨none, none, some m, false⟩]))).ui.error
      = some ("Error: " ++ m)
  ∧ (sendMessage s (FetchResult.stream h
        (cs.map contentEvent ++ [⟨none, none, some m, false⟩]))).ui.messages
      = s.messages ++ [⟨Role.user, strTrim s.input⟩,
          ⟨Role.assistant, String.join (cs.filter (fun x => !(x == "")))⟩] := by
  have hloop : readLoop
      ⟨(s.messages ++ [⟨Role.user, strTrim s.input⟩]) ++ [⟨Role.assistant, ""⟩], "", none, false⟩
      (cs.map contentEvent ++ [⟨none, none, some m, false⟩])
      = ⟨(s.messages ++ [⟨Role.user, strTrim s.input⟩])
            ++ [⟨Role.assistant, String.join (cs.filter (fun x => !(x == "")))⟩],
          String.join (cs.filter (fun x => !(x == ""))),
          some ("Error: " ++ m), true⟩ := by
    rw [readLoop_contents,
        show ("" ++ String.join (cs.filter (fun x => !(x == ""))))
            = String.join (cs.filter (fun x => !(x == ""))) from rfl]
    rw [readLoop_cons _ _ _ rfl,
        show processLine ⟨(s.messages ++ [⟨Role.user, strTrim s.input⟩])
              ++ [⟨Role.assistant, String.join (cs.filter (fun x => !(x == "")))⟩],
            String.join (cs.filter (fun x => !(x == ""))), none, false⟩
            ⟨none, none, some m, false⟩
          = ⟨(s.messages ++ [⟨Role.user, strTrim s.input⟩])
              ++ [⟨Role.assistant, String.join (cs.filter (fun x => !(x == "")))⟩],
            String.join (cs.filter (fun x => !(x == ""))),
            some ("Error: " ++ m), true⟩ from by
          simp [processLine, strTruthy, hm]]
    simp [readLoop]
  rw [sendMessage_stream s h _ hin hty hrl]
  refine ⟨?_, ?_, ?_⟩
  · rw [hloop]
    rfl
  · rw [hloop]
  · rw [hloop]
    simp

/-- Witness for error_event_no_rollback: one content event "par" then error
"boom"; the partial content stays in the final assistant message. -/
theorem error_event_no_rollback_witness :
    ((strTrim (⟨[], "hi", false, ⟨1, 1, none, false⟩, none⟩ : UIState).input == "") = false)
  ∧ ((sendMessage ⟨[], "hi", false, ⟨1, 1, none, false⟩, none⟩
        (FetchResult.stream ⟨1, 0, none⟩
          (["par"].map contentEvent ++ [⟨none, none, some "boom", false⟩]))).phase
      = SendPhase.Errored
    ∧ (sendMessage ⟨[], "hi", false, ⟨1, 1, none, false⟩, none⟩
        (FetchResult.stream ⟨1, 0, none⟩
          (["par"].map contentEvent ++ [⟨none, none, some "boom", false⟩]))).ui.messages
      = [] ++ [⟨Role.user, strTrim "hi"⟩,
          ⟨Role.assistant, String.join (["par"].filter (fun x => !(x == "")))⟩]) := by
  have h := error_event_no_rollback ⟨[], "hi", false, ⟨1, 1, none, false⟩, none⟩
      ⟨1, 0, none⟩ ["par"] "boom" (by decide) rfl (by decide) (by decide)
  exact ⟨by decide, h.1, h.2.2⟩

/-! ## Byte-level decoding (part_000 lines 109, 120)

The client creates new TextDecoder("utf-8") once and calls
decoder.decode(value) on each reader chunk WITHOUT the stream: true option.
Per the WHATWG Encoding standard, a decode call without stream: true flushes
the decoder at the end of the chunk: an incomplete multi-byte sequence at
the chunk boundary becomes U+FFFD instead of being carried into the next
call.  We model UTF-8 encoding and that per-chunk decoding. -/

/-- UTF-8 encoding of one character. -/
def utf8EncodeChar (c : Char) : List Nat :=
  let n := c.toNat
  if n < 0x80 then [n]
  else if n < 0x800 then [0xC0 + n / 64, 0x80 + n % 64]
  else if n < 0x10000 then
    [0xE0 + n / 4096, 0x80 + (n / 64) % 64, 0x80 + n % 64]
  else
    [0xF0 + n / 262144, 0x80 + (n / 4096) % 64, 0x80 + (n / 64) % 64, 0x80 + n % 64]

/-- UTF-8 encoding of a string, as the server's res.write puts it on the wire. -/
def utf8Encode (s : String) : List Nat :=
  s.data.foldr (fun c acc => utf8EncodeChar c ++ acc) []

/-- The replacement character U+FFFD emitted for malformed input. -/
def replacementChar : Char := Char.ofNat 0xFFFD

/-- A UTF-8 continuation byte. -/
def isCont (b : Nat) : Bool := 0x80 ≤ b && b < 0xC0

/-- One full (non-streaming) UTF-8 decode of a byte chunk, errors replaced by
U+FFFD — the behavior of TextDecoder("utf-8").decode(chunk) when the
stream option is not passed: a trailing incomplete sequence is flushed to a
replacement character, and a stray continuation byte becomes one as well. -/
def decodeUtf8Go : Nat → List Nat → List Char
  | 0, _ => []
  | _ + 1, [] => []
  | fuel + 1, b :: bs =>
    if b < 0x80 then Char.ofNat b :: decodeUtf8Go fuel bs
    else if b < 0xC2 then replacementChar :: decodeUtf8Go fuel bs
    else if b < 0xE0 then
      match bs with
      | b2 :: rest =>
          if isCont b2 then
            Char.ofNat ((b - 0xC0) * 64 + (b2 - 0x80)) :: decodeUtf8Go fuel rest
          else replacementChar :: decodeUtf8Go fuel bs
      | [] => [replacementChar]
    else if b < 0xF0 then
      match bs with
      | b2 :: b3 :: rest =>
          if isCont b2 && isCont b3 then
            Char.ofNat ((b - 0xE0) * 4096 + (b2 - 0x80) * 64 + (b3 - 0x80))
              :: decodeUtf8Go fuel rest
          else replacementChar :: decodeUtf8Go fuel bs
      | _ => [replacementChar]
    else if b < 0xF5 then
      match bs with
      | b2 :: b3 :: b4 :: rest =>
          if isCont b2 && isCont b3 && isCont b4 then
            Char.ofNat ((b - 0xF0) * 262144 + (b2 - 0x80) * 4096
                + (b3 - 0x80) * 64 + (b4 - 0x80)) :: decodeUtf8Go fuel rest
          else replacementChar :: decodeUtf8Go fuel bs
      | _ => [replacementChar]
    else replacementChar :: decodeUtf8Go fuel bs

/-- Decode a whole chunk; every step consumes at least one byte, so
length + 1 steps always finish the chunk. -/
def decodeUtf8 (l : List Nat) : List Char :=
  decodeUtf8Go (l.length + 1) l

/-- The client's decoding of a sequence of reader chunks (part_000 lines
109-120): each chunk is decoded independently — decoder.decode(value)
without stream: true — and the decoded texts are processed in order, so
the text the Controller sees is their concatenation. -/
def decodeChunks (chunks : List (List Nat)) : String :=
  String.join (chunks.map (fun c => String.mk (decodeUtf8 c)))

/-- C2 evidence: the two-byte character é (U+00E9, bytes 0xC3 0xA9) split
across two reader chunks decodes to two replacement characters, not to é:
the character is corrupted, while the unsplit chunk decodes correctly — so
the accumulated text does depend on where the chunk boundary falls. -/
theorem multibyte_split_corrupts :
    utf8Encode (String.mk [Char.ofNat 0xE9]) = [0xC3, 0xA9]
  ∧ decodeChunks [[0xC3], [0xA9]] = String.mk [replacementChar, replacementChar]
  ∧ decodeChunks [[0xC3], [0xA9]] ≠ String.mk [Char.ofNat 0xE9]
  ∧ decodeChunks [[0xC3, 0xA9]] = String.mk [Char.ofNat 0xE9] := by
  refine ⟨by decide, by decide, by decide, by decide⟩

end ChatSpec
